import Mathlib


/-!
Verification of the goproxy adapter (src/main.go) against its
natural-language specification.

The Go source is shallowly embedded: pure functions become Lean functions,
the filesystem-backed version-list cache becomes explicit state passing over
an `FS` record, the external toolchain (the go command) and the external
`golang.org/x/mod` escaping routine become oracle parameters, and Go errors
(plain strings built with fmt.Errorf) become `Except String` values.
Times are natural numbers counted in seconds.
-/

/-! ## Access rules (src/main.go lines 69-88, 177-220) -/

/-- A compiled access rule. The Go code stores `*regexp.Regexp` values and
only ever calls `MatchString` on them, so a compiled rule is embedded as its
match predicate on module paths. -/
def Rule : Type := String → Bool

/-- Models `regexp.Compile("^" ++ w ++ "$")` followed by `MatchString`, for a
rule-file line `w` that contains no regular-expression metacharacters: the
anchored pattern then matches exactly the string `w` itself. For lines WITH
metacharacters Go's semantics differ (the line `a*` compiles to `^a*$`,
which also matches the empty path), so every theorem below exercises rule
matching only at metacharacter-free (possibly empty) literal lines, where
this model coincides with Go's regexp semantics. -/
def compileAnchoredLiteral (w : String) : Rule := fun s => s == w

/-- Models `strings.Split(s, "\n")` from the Go standard library on the
decoded character list: n newline characters yield n+1 pieces. The newline
is a one-byte rune, so this character-level split coincides with Go's
byte-level split. -/
def splitNewlines : List Char → List (List Char)
  | [] => [[]]
  | c :: rest =>
    match splitNewlines rest with
    | [] => [[]]
    | l :: ls => if c = '\n' then [] :: l :: ls else (c :: l) :: ls

/-- The lines of a rule file body, per `strings.Split(string(b), "\n")`. -/
def goLines (s : String) : List String :=
  (splitNewlines s.data).map String.mk

/-- `loadRules` (src/main.go lines 69-88) applied to the contents of a
non-empty rule file: the file body is split on newline characters
(`strings.Split(string(b), "\n")`) and every resulting line, including any
empty line produced by a trailing newline, is compiled into the anchored
pattern `^line$`. -/
def loadRules (content : String) : List Rule :=
  (goLines content).map compileAnchoredLiteral

/-- The `ops` record (src/main.go lines 177-180): the compiled whitelist and
blacklist. -/
structure Ops where
  whiteList : List Rule
  blackList : List Rule

/-- `ops.isWhitelisted` (src/main.go lines 185-192): true iff some whitelist
rule matches the path. The Go loop returns on the first match, which is
`List.any`. -/
def Ops.isWhitelisted (o : Ops) (path : String) : Bool :=
  o.whiteList.any fun r => r path

/-- `ops.isBlacklisted` (src/main.go lines 193-200): true iff some blacklist
rule matches the path. -/
def Ops.isBlacklisted (o : Ops) (path : String) : Bool :=
  o.blackList.any fun r => r path

/-- `ops.Filter` (src/main.go lines 201-220), translated exactly as written:
BOTH guards test `len(o.whiteList) > 0` (the first guard's comment speaks of
the blacklist, but the code tests the whitelist's length). -/
def Ops.Filter (o : Ops) (path : String) : Bool :=
  if o.whiteList.length > 0 && o.isBlacklisted path then false
  else if o.whiteList.length > 0 && !o.isWhitelisted path then false
  else true

/-! ## Request logger (src/main.go lines 156-174) -/

/-- The `responseLogger` wrapper (src/main.go lines 160-163), restricted to
its own `code` field. The embedded `http.ResponseWriter` is the external
network connection and is not modelled; `logger.ServeHTTP` reads only the
wrapper's `code` field for its log line. -/
structure ResponseLogger where
  code : Nat

/-- `responseLogger.WriteHeader` (src/main.go lines 165-168): every call
stores the given status code into the wrapper's `code` field
(unconditionally) and forwards the call to the wrapped writer. -/
def ResponseLogger.WriteHeader (r : ResponseLogger) (c : Nat) : ResponseLogger :=
  { r with code := c }

/-- `logger.ServeHTTP` (src/main.go lines 169-174), restricted to the status
code it logs: a wrapper is created with `code` 200, the inner handler runs
(embedded as the ordered list of status codes it passes to `WriteHeader`),
and the wrapper's final `code` field is what the log line reports. Elapsed
time and the request URL, the other fields of the log line, are wall-clock
and I/O values outside the embedding. -/
def Logger.ServeHTTP (handlerWrites : List Nat) : Nat :=
  (handlerWrites.foldl ResponseLogger.WriteHeader (ResponseLogger.mk 200)).code

/-! ## Version-list serialization (src/main.go lines 240-243) -/

/-- The serialization of the toolchain's version list inside `ops.List`
(src/main.go lines 240-243):
`data := []byte(strings.Join(list.Versions, "\n") + "\n")`, then replaced by
`nil` (an empty byte stream) when `len(data) == 1`. Go's `len` counts bytes;
`data` always ends with the one-byte newline, so `len(data) == 1` holds
exactly when `data` is the single newline string, which is also exactly when
its character count is 1 — hence `String.length` renders the test
faithfully. -/
def listData (versions : List String) : String :=
  let data := String.intercalate "\n" versions ++ "\n"
  if data.length == 1 then "" else data

/-! ## Directory-creation permission (src/main.go line 244) -/

/-- The permission argument of the `os.MkdirAll(path.Dir(file), 755)` call
inside `ops.List` (src/main.go line 244): the literal is written in decimal,
so the value passed is decimal 755. -/
def mkdirAllPerm : Nat := 755

/-! ## Toolchain invocation helper (src/main.go lines 142-154) -/

/-- The outcome of one external-process run via `exec.Cmd.Run` with standard
output and standard error captured into separate buffers (src/main.go lines
143-147): `success` is whether `cmd.Run()` returned nil (zero exit). -/
structure ProcResult where
  success : Bool
  stdout : String
  stderr : String

/-- `goJSON` (src/main.go lines 142-154). Process execution is the oracle
`runner` from the command line to a `ProcResult`; `json.Unmarshal` into the
destination record is the oracle `decode`, returning either the decoded
value or the JSON error text that the `%v` verb would render. The two error
strings are built exactly as the two `fmt.Errorf` calls build them:
`"<cmd>:\n<stderr><stdout>"` on non-zero exit and
`"<cmd>: reading json: <err>"` on a decode failure. -/
def goJSON {α : Type} (runner : List String → ProcResult)
    (decode : String → Except String α) (command : List String) :
    Except String α :=
  let r := runner command
  if r.success then
    match decode r.stdout with
    | Except.ok v => Except.ok v
    | Except.error e =>
        Except.error (String.intercalate " " command ++ ": reading json: " ++ e)
  else
    Except.error (String.intercalate " " command ++ ":\n" ++ r.stderr ++ r.stdout)

/-- A concrete process oracle for the witness: exits zero with stdout "42". -/
def runnerForWitness : List String → ProcResult :=
  fun _ => ProcResult.mk true "42" ""

/-- A concrete decoder for the witness: decodes a string to its length. -/
def decodeForWitness : String → Except String Nat :=
  fun s => Except.ok s.length

/-! ## Resolution delegate (src/main.go lines 251-294) -/

/-- `module.Version` from golang.org/x/mod: a module path plus a version. -/
structure ModVersion where
  Path : String
  Version : String

/-- `module.Version.String` from golang.org/x/mod (an external library,
modelled from its documented behaviour): `"Path@Version"`, or just `"Path"`
when the version is empty. -/
def ModVersion.toString (m : ModVersion) : String :=
  if m.Version = "" then m.Path else m.Path ++ "@" ++ m.Version

/-- The `downloadInfo` record (src/main.go lines 280-289): local file paths
and checksums produced by the toolchain's download mode. -/
structure DownloadInfo where
  Path : String
  Version : String
  Info : String
  GoMod : String
  Zip : String
  Dir : String
  Sum : String
  GoModSum : String

/-- The command line that `download` (src/main.go line 293) passes to
`goJSON`: `go mod download -json <m.String()>`. -/
def downloadCmd (m : ModVersion) : List String :=
  ["go", "mod", "download", "-json", m.toString]

/-- `download` (src/main.go lines 291-294): a single `goJSON` invocation of
the toolchain in download mode. The combined process execution and JSON
decode into `downloadInfo` is the oracle `goRun`, applied to the exact
command line `download` builds. -/
def download (goRun : List String → Except String DownloadInfo)
    (m : ModVersion) : Except String DownloadInfo :=
  goRun (downloadCmd m)

/-- `ops.Latest` (src/main.go lines 251-257): download `path@latest` and, on
success, open the `Info` file of the download record. An `os.Open` handle is
embedded as the name of the file it opens. -/
def Ops.Latest (goRun : List String → Except String DownloadInfo)
    (path : String) : Except String String :=
  match download goRun (ModVersion.mk path "latest") with
  | Except.error e => Except.error e
  | Except.ok d => Except.ok d.Info

/-- `ops.Info` (src/main.go lines 258-264): download the given coordinate
and, on success, open the `Info` file of the download record. -/
def Ops.Info (goRun : List String → Except String DownloadInfo)
    (m : ModVersion) : Except String String :=
  match download goRun m with
  | Except.error e => Except.error e
  | Except.ok d => Except.ok d.Info

/-- `ops.GoMod` (src/main.go lines 265-271): as `ops.Info` but opening the
`GoMod` file. -/
def Ops.GoMod (goRun : List String → Except String DownloadInfo)
    (m : ModVersion) : Except String String :=
  match download goRun m with
  | Except.error e => Except.error e
  | Except.ok d => Except.ok d.GoMod

/-- `ops.Zip` (src/main.go lines 272-278): as `ops.Info` but opening the
`Zip` file. -/
def Ops.Zip (goRun : List String → Except String DownloadInfo)
    (m : ModVersion) : Except String String :=
  match download goRun m with
  | Except.error e => Except.error e
  | Except.ok d => Except.ok d.Zip

/-! ## Version-list cache: ops.List (src/main.go lines 221-250) -/

/-- `listExpire` (src/main.go line 42): `5 * time.Minute`, counted here in
seconds. -/
def listExpire : Nat := 5 * 60

/-- A cache file: its contents and its modification time, the sole freshness
signal. (The 0666 file permission passed to `ioutil.WriteFile` plays no role
in any behaviour of the adapter and is not recorded.) -/
structure CacheFile where
  content : String
  mtime : Nat

/-- The local filesystem visible to `ops.List`: cache files keyed by path,
plus the directories created by `os.MkdirAll` together with the permission
argument each creation call passed. A later write shadows an earlier entry
(lookup takes the first match), modelling whole-file replacement. -/
structure FS where
  files : List (String × CacheFile)
  dirs : List (String × Nat)

/-- `os.Stat` followed by `os.Open`, restricted to what `ops.List` consults:
the cache file at a path, or none when the file does not exist. -/
def FS.lookup (fs : FS) (p : String) : Option CacheFile :=
  (fs.files.find? fun kv => kv.1 == p).map fun kv => kv.2

/-- `os.MkdirAll(dir, perm)` (src/main.go line 244): records the directory
created and the permission argument passed; files are untouched. -/
def FS.mkdirAll (fs : FS) (dir : String) (perm : Nat) : FS :=
  FS.mk fs.files ((dir, perm) :: fs.dirs)

/-- `ioutil.WriteFile(file, data, 0666)` (src/main.go line 245) followed by
the re-open: whole-file replacement, stamped with the current time. -/
def FS.writeFile (fs : FS) (p : String) (content : String) (now : Nat) : FS :=
  FS.mk ((p, CacheFile.mk content now) :: fs.files) fs.dirs

/-- Splits a character list at every occurrence of a separator character:
`strings.Split` for a one-byte separator. -/
def splitOnSep (sep : Char) : List Char → List (List Char)
  | [] => [[]]
  | c :: rest =>
    match splitOnSep sep rest with
    | [] => [[]]
    | l :: ls => if c = sep then [] :: l :: ls else (c :: l) :: ls

/-- `path.Dir` from the Go standard library, for the already-clean
slash-separated paths `ops.List` builds: every path element but the last,
joined by slashes. -/
def pathDir (p : String) : String :=
  String.intercalate "/" (((splitOnSep '/' p.data).map String.mk).dropLast)

/-- The anonymous record `ops.List` decodes the `go list` output into
(src/main.go lines 230-233): the resolved module path and its versions. -/
structure GoListResult where
  Path : String
  Versions : List String

/-- The environment of an `ops.List` call: the download root (the global
`downloadRoot`, src/main.go line 40), `module.EscapePath` from
golang.org/x/mod (an external library; an oracle returning the escaped path
or an error), and the `goJSON` invocation of
`go list -m -json -versions <arg>` (src/main.go line 234; process execution
plus JSON decode, as one oracle from the `modulePath@latest` argument to a
decoded result or an error string). -/
structure ListEnv where
  downloadRoot : String
  escapePath : String → Except String String
  goList : String → Except String GoListResult

/-- The cache-file path
`filepath.Join(downloadRoot, escMod+"/@v/listproxy")` (src/main.go line
226), for clean slash-separated components. -/
def cachePath (root escMod : String) : String :=
  root ++ "/" ++ escMod ++ "/@v/listproxy"

/-- The slow path of `ops.List` (src/main.go lines 230-249): invoke the
toolchain listing for `modulePath@latest`, reject a mismatched coordinate
with the exact `fmt.Errorf` message, otherwise serialize the versions,
create the cache directory, write the cache file and re-open it. The final
`Nat` counts toolchain invocations (always 1 on this path). -/
def listFetch (env : ListEnv) (now : Nat) (mpath : String) (fs : FS)
    (file : String) : Except String String × FS × Nat :=
  match env.goList (mpath ++ "@latest") with
  | Except.error e => (Except.error e, fs, 1)
  | Except.ok res =>
    if res.Path ≠ mpath then
      (Except.error ("go list -m: asked for " ++ mpath ++ " but got " ++ res.Path),
        fs, 1)
    else
      let data := listData res.Versions
      (Except.ok data,
        (fs.mkdirAll (pathDir file) mkdirAllPerm).writeFile file data now, 1)

/-- `ops.List` (src/main.go lines 221-250): escape the module path, consult
the cache file, return its contents verbatim when it exists and is younger
than `listExpire`, and take the slow path otherwise. The final `Nat` counts
toolchain invocations of the call. Nat time renders
`time.Since(mtime) < listExpire` as `now - mtime < listExpire`: a
modification time in the future gives truncated difference 0, which — like
Go's negative duration — counts as fresh. -/
def Ops.List (env : ListEnv) (now : Nat) (mpath : String) (fs : FS) :
    Except String String × FS × Nat :=
  match env.escapePath mpath with
  | Except.error e => (Except.error e, fs, 0)
  | Except.ok escMod =>
    let file := cachePath env.downloadRoot escMod
    match FS.lookup fs file with
    | some info =>
      if now - info.mtime < listExpire then (Except.ok info.content, fs, 0)
      else listFetch env now mpath fs file
    | none => listFetch env now mpath fs file

/-- A concrete environment for the cache witnesses: cache root "dl",
identity path escaping, and a toolchain that lists module "m" with the
single version v1.0.0. -/
def envForWitness : ListEnv :=
  ListEnv.mk "dl" (fun p => Except.ok p)
    (fun _ => Except.ok (GoListResult.mk "m" ["v1.0.0"]))

/-- A filesystem already holding a fresh cache entry for module "m". -/
def fsFreshForWitness : FS :=
  FS.mk [("dl/m/@v/listproxy", CacheFile.mk "v1.0.0\n" 100)] []

/-- The filesystem left by a first cache-missing call at time 400 under
`envForWitness`. -/
def fsAfterFirstCall : FS :=
  FS.mk [("dl/m/@v/listproxy", CacheFile.mk "v1.0.0\n" 400)] [("dl/m/@v", 755)]

/-- A concrete environment whose toolchain resolves every request to the
path "other/module". -/
def envMismatchForWitness : ListEnv :=
  ListEnv.mk "dl" (fun p => Except.ok p)
    (fun _ => Except.ok (GoListResult.mk "other/module" []))

/-! ## Theorems -/

/-- Claim C1: the spec demands that a path matching a deny (blacklist) rule is
rejected regardless of the allow list, and the code's own comment above the
first guard agrees ("If any blacklist is provided and the path is
blacklisted, refuse the path") — but the guard tests the WHITELIST's length,
so with an empty whitelist a blacklisted path is accepted. At the failing
input (empty whitelist, blacklist `{^evil.com/mod$}`, path `evil.com/mod`)
the path is blacklisted yet `Filter` returns true. -/
theorem filter_accepts_blacklisted_path_when_whitelist_empty :
    (Ops.mk [] [compileAnchoredLiteral "evil.com/mod"]).isBlacklisted "evil.com/mod" = true ∧
    (Ops.mk [] [compileAnchoredLiteral "evil.com/mod"]).Filter "evil.com/mod" = true := by
  constructor <;> decide

/-- Claim C7: for a path matching no deny rule, `Filter` accepts iff the
allow list is empty or some allow rule matches; in particular with no rules
configured at all the filter accepts every path. -/
theorem filter_allow_semantics_without_deny_match (o : Ops) (p : String)
    (h : o.isBlacklisted p = false) :
    (o.Filter p = true ↔ (o.whiteList = [] ∨ o.isWhitelisted p = true)) ∧
    (o.whiteList = [] → o.blackList = [] → o.Filter p = true) := by
  constructor
  · unfold Ops.Filter
    rw [h]
    cases hw : o.whiteList with
    | nil => simp
    | cons a l =>
      cases hwl : o.isWhitelisted p with
      | false => simp [hw, hwl]
      | true => simp [hwl]
  · intro hw _
    unfold Ops.Filter
    simp [hw]

/-- Witness for C7 at a concrete input: with no rules configured, the path
`example.com/mod` is accepted. -/
theorem filter_allow_semantics_without_deny_match_witness :
    (Ops.mk [] []).Filter "example.com/mod" = true :=
  ((filter_allow_semantics_without_deny_match (Ops.mk [] []) "example.com/mod"
      (by decide)).1).mpr (Or.inl rfl)

/-- Claim C3, counterexample: the compiled rule list loaded from the file
body `"a\n"` (one rule line plus a trailing newline, the normal shape of a
rule file) is non-empty, and the EMPTY module path matches it: the trailing
newline yields an empty line, compiled to the pattern `^$`, which matches
`""`. So an empty path can match a non-empty compiled pattern list,
contradicting the claim as stated. -/
theorem empty_path_matches_rules_from_trailing_newline :
    (loadRules "a\n").length > 0 ∧
    (Ops.mk (loadRules "a\n") []).isWhitelisted "" = true ∧
    (Ops.mk [] (loadRules "a\n")).isBlacklisted "" = true := by
  refine ⟨by decide, by decide, by decide⟩

/-- Claim C3, amended (no more than the counterexample forces): the empty
module path CAN match a non-empty compiled pattern list — any rule file
containing an empty line (for instance one ending in a trailing newline)
loads to a list the empty path matches, the empty line compiling to the
anchored pattern `^$`, which matches `""` under Go's regexp semantics just
as in the model; and `Filter("")` returns false only when the allow list is
non-empty. (Only this sufficiency direction is stated: a non-empty line
built from regexp metacharacters, such as `a*`, can also match the empty
path in Go, so empty lines are not the only way.) -/
theorem empty_path_match_sufficiency_and_filter (content : String) (o : Ops)
    (hline : "" ∈ goLines content) (hfalse : o.Filter "" = false) :
    (Ops.mk (loadRules content) []).isWhitelisted "" = true ∧
    o.whiteList ≠ [] := by
  constructor
  · unfold Ops.isWhitelisted
    rw [List.any_eq_true]
    refine ⟨compileAnchoredLiteral "", ?memb, ?cond⟩
    · exact List.mem_map_of_mem compileAnchoredLiteral hline
    · decide
  · intro hnil
    unfold Ops.Filter at hfalse
    simp [hnil] at hfalse

/-- Witness for the amended C3 at concrete inputs: the rule file `"\n"` has
an empty line, so the empty path matches its compiled (non-empty) list; and
an `Ops` whose whitelist is the single literal rule `^a$` rejects the empty
path and indeed has a non-empty whitelist. -/
theorem empty_path_match_sufficiency_and_filter_witness :
    (Ops.mk (loadRules "\n") []).isWhitelisted "" = true ∧
    (Ops.mk [compileAnchoredLiteral "a"] []).whiteList ≠ [] :=
  empty_path_match_sufficiency_and_filter "\n"
    (Ops.mk [compileAnchoredLiteral "a"] []) (by decide) (by decide)

theorem foldl_writeHeader_code (ws : List Nat) (r : ResponseLogger) :
    (ws.foldl ResponseLogger.WriteHeader r).code = ws.getLastD r.code := by
  induction ws generalizing r with
  | nil => rfl
  | cons a l ih =>
    rw [List.foldl_cons, ih, List.getLastD_cons]
    rfl

/-- Claim C2, counterexample: an inner handler that writes status 404 and
afterwards writes status 500 is logged with status 500, not 404 —
`responseLogger.WriteHeader` overwrites the `code` field on every call, so
the LAST write wins, contradicting the claim's first-write-wins statement. -/
theorem logger_records_last_write_counterexample :
    Logger.ServeHTTP [404, 500] = 500 ∧ 500 ≠ 404 := by
  constructor
  · rfl
  · decide

/-- Claim C2, amended: the status code logged by the request logger is the
LAST status code the inner handler explicitly writes, or 200 when the
handler never writes one. -/
theorem logger_status_is_last_write (handlerWrites : List Nat) :
    Logger.ServeHTTP handlerWrites = handlerWrites.getLastD 200 :=
  foldl_writeHeader_code handlerWrites (ResponseLogger.mk 200)

theorem string_length_zero_iff (s : String) : s.length = 0 ↔ s = "" := by
  cases s with
  | mk data =>
    simp only [String.length]
    constructor
    · intro h
      rw [List.length_eq_zero] at h
      simp [h]
    · intro h
      have hd : data = [] := by
        have := congrArg String.data h
        simpa using this
      simp [hd]

theorem append_newline_eq_newline_iff (s : String) :
    s ++ "\n" = "\n" ↔ s = "" := by
  constructor
  · intro h
    have h1 : (s ++ "\n").length = ("\n" : String).length := by rw [h]
    rw [String.length_append] at h1
    simp at h1
    exact (string_length_zero_iff s).mp h1
  · intro h
    rw [h]
    exact String.empty_append "\n"

/-- Claim C6: a version list is serialized by joining its entries with
newline separators and appending a trailing newline —
`["v1.0.0","v1.1.0"]` becomes `"v1.0.0\nv1.1.0\n"` — except that a result
that would be only the trailing newline (in particular the empty list) is
replaced by the empty byte stream. -/
theorem list_serialization (versions : List String) :
    listData ["v1.0.0", "v1.1.0"] = "v1.0.0\nv1.1.0\n" ∧
    listData [] = "" ∧
    listData versions =
      (if String.intercalate "\n" versions ++ "\n" = "\n" then ""
       else String.intercalate "\n" versions ++ "\n") := by
  refine ⟨by decide, by decide, ?_⟩
  have hone : ("\n" : String).length = 1 := by decide
  simp only [listData]
  by_cases h : String.intercalate "\n" versions ++ "\n" = "\n"
  · have h0 : (String.intercalate "\n" versions).length = 0 :=
      (string_length_zero_iff _).mpr ((append_newline_eq_newline_iff _).mp h)
    have hlen : (String.intercalate "\n" versions ++ "\n").length = 1 := by
      rw [String.length_append, h0, hone]
    simp [hlen, h, hone]
  · have h0 : (String.intercalate "\n" versions).length ≠ 0 := by
      intro hz
      exact h ((append_newline_eq_newline_iff _).mpr ((string_length_zero_iff _).mp hz))
    have hlen : (String.intercalate "\n" versions ++ "\n").length ≠ 1 := by
      rw [String.length_append, hone]
      omega
    simp [String.length_append, hone, hlen, h]
    intro hz
    exact absurd hz h0

/-- Claim C9: the permission value passed to the cache-directory creation
call is the decimal literal 755, whose octal spelling is 1363, and is NOT
the conventional octal permission 0o755 (decimal 493) it is evidently meant
to denote. -/
theorem mkdirAll_permission_is_decimal_755 :
    mkdirAllPerm = 755 ∧ mkdirAllPerm = 0o1363 ∧ mkdirAllPerm ≠ 0o755 := by
  refine ⟨rfl, rfl, by decide⟩

/-- Claim C8: on non-zero exit `goJSON` returns an error embedding the full
command line, the captured standard error and the captured standard output;
on zero exit with output the decoder rejects, a decode error naming the
attempted command; on zero exit with decodable output, the decoded record
and no error. -/
theorem goJSON_cases {α : Type} (runner : List String → ProcResult)
    (decode : String → Except String α) (command : List String) :
    ((runner command).success = false →
      goJSON runner decode command =
        Except.error (String.intercalate " " command ++ ":\n" ++
          (runner command).stderr ++ (runner command).stdout)) ∧
    (∀ e, (runner command).success = true →
      decode (runner command).stdout = Except.error e →
      goJSON runner decode command =
        Except.error (String.intercalate " " command ++ ": reading json: " ++ e)) ∧
    (∀ v, (runner command).success = true →
      decode (runner command).stdout = Except.ok v →
      goJSON runner decode command = Except.ok v) := by
  refine ⟨?fail, ?bad, ?good⟩
  · intro hfail
    simp [goJSON, hfail]
  · intro e hok hdec
    simp [goJSON, hok, hdec]
  · intro v hok hdec
    simp [goJSON, hok, hdec]

/-- Witness for C8 at a concrete input: a zero-exit run whose stdout "42"
decodes to the value 2 makes goJSON return that value with no error. -/
theorem goJSON_cases_witness :
    goJSON runnerForWitness decodeForWitness ["go", "env", "-json", "GOPATH"] =
      Except.ok 2 :=
  (goJSON_cases runnerForWitness decodeForWitness
    ["go", "env", "-json", "GOPATH"]).2.2 2 rfl rfl

/-- Claim C10: for every module path and every toolchain behaviour,
`Latest(P)` is observably equal to `Info` applied to the coordinate
(P, "latest"): both issue the single download invocation
`go mod download -json P@latest` and open the same `Info` file of the
resulting download record. -/
theorem latest_eq_info_at_latest (goRun : List String → Except String DownloadInfo)
    (path : String) :
    Ops.Latest goRun path = Ops.Info goRun (ModVersion.mk path "latest") ∧
    downloadCmd (ModVersion.mk path "latest") =
      ["go", "mod", "download", "-json", path ++ "@latest"] := by
  constructor
  · rfl
  · simp [downloadCmd, ModVersion.toString]
    rw [String.append_assoc]
    rfl

theorem lookup_writeFile (fs : FS) (p c : String) (t : Nat) :
    FS.lookup (FS.writeFile fs p c t) p = some (CacheFile.mk c t) := by
  unfold FS.lookup FS.writeFile
  rw [List.find?_cons_of_pos _ (by simp)]
  rfl

theorem listFetch_ok (env : ListEnv) (now : Nat) (mpath : String) (fs : FS)
    (file c : String) (s1 : FS) (n1 : Nat)
    (h : listFetch env now mpath fs file = (Except.ok c, s1, n1)) :
    FS.lookup s1 file = some (CacheFile.mk c now) ∧ n1 = 1 := by
  unfold listFetch at h
  cases hg : env.goList (mpath ++ "@latest") with
  | error e =>
    rw [hg] at h
    simp at h
  | ok res =>
    rw [hg] at h
    dsimp only at h
    by_cases hp : res.Path ≠ mpath
    · rw [if_pos hp] at h
      simp at h
    · rw [if_neg hp] at h
      simp only [Prod.mk.injEq, Except.ok.injEq] at h
      obtain ⟨hc, hs, hn⟩ := h
      subst hc
      subst hs
      exact ⟨lookup_writeFile _ _ _ _, hn.symm⟩

theorem list_fresh_hit (env : ListEnv) (now : Nat) (mpath escMod : String)
    (fs : FS) (cf : CacheFile)
    (hesc : env.escapePath mpath = Except.ok escMod)
    (hfile : FS.lookup fs (cachePath env.downloadRoot escMod) = some cf)
    (hfresh : now - cf.mtime < listExpire) :
    Ops.List env now mpath fs = (Except.ok cf.content, fs, 0) := by
  unfold Ops.List
  rw [hesc]
  simp only [hfile]
  rw [if_pos hfresh]

theorem list_ok_leaves_fresh_content (env : ListEnv) (t1 : Nat)
    (mpath escMod c : String) (fs s1 : FS) (n1 : Nat) (cf1 : CacheFile)
    (hesc : env.escapePath mpath = Except.ok escMod)
    (hcall : Ops.List env t1 mpath fs = (Except.ok c, s1, n1))
    (hlook : FS.lookup s1 (cachePath env.downloadRoot escMod) = some cf1) :
    cf1.content = c ∧ n1 ≤ 1 := by
  unfold Ops.List at hcall
  rw [hesc] at hcall
  cases hl : FS.lookup fs (cachePath env.downloadRoot escMod) with
  | some cf =>
    simp only [hl] at hcall
    by_cases hfresh : t1 - cf.mtime < listExpire
    · rw [if_pos hfresh] at hcall
      simp only [Prod.mk.injEq, Except.ok.injEq] at hcall
      obtain ⟨hc, hs, hn⟩ := hcall
      subst hc
      subst hs
      rw [hl] at hlook
      cases hlook
      exact ⟨rfl, by omega⟩
    · rw [if_neg hfresh] at hcall
      obtain ⟨hfile, hn⟩ := listFetch_ok env t1 mpath fs _ c s1 n1 hcall
      rw [hfile] at hlook
      cases hlook
      exact ⟨rfl, by omega⟩
  | none =>
    simp only [hl] at hcall
    obtain ⟨hfile, hn⟩ := listFetch_ok env t1 mpath fs _ c s1 n1 hcall
    rw [hfile] at hlook
    cases hlook
    exact ⟨rfl, by omega⟩

/-- Claim C4: fast path — when the cache file for the escaped module path
exists with age below `listExpire` at call time, `ops.List` returns that
file's contents verbatim, invokes the toolchain zero times and leaves the
filesystem unchanged; idempotence — when a first call succeeds and a second
call happens while the cache entry left behind by the first call is still
within the TTL window, the second call returns byte-identical content,
leaves the state unchanged and invokes the toolchain zero times, so the two
calls together invoke it at most once. -/
theorem list_ttl_fast_path_and_idempotence (env : ListEnv) (mpath escMod : String) :
    (∀ (now : Nat) (fs : FS) (cf : CacheFile),
      env.escapePath mpath = Except.ok escMod →
      FS.lookup fs (cachePath env.downloadRoot escMod) = some cf →
      now - cf.mtime < listExpire →
      Ops.List env now mpath fs = (Except.ok cf.content, fs, 0)) ∧
    (∀ (t1 t2 : Nat) (fs s1 : FS) (c : String) (n1 : Nat) (cf1 : CacheFile),
      env.escapePath mpath = Except.ok escMod →
      Ops.List env t1 mpath fs = (Except.ok c, s1, n1) →
      FS.lookup s1 (cachePath env.downloadRoot escMod) = some cf1 →
      t2 - cf1.mtime < listExpire →
      Ops.List env t2 mpath s1 = (Except.ok c, s1, 0) ∧ n1 + 0 ≤ 1) := by
  constructor
  · intro now fs cf hesc hfile hfresh
    exact list_fresh_hit env now mpath escMod fs cf hesc hfile hfresh
  · intro t1 t2 fs s1 c n1 cf1 hesc hcall hlook hfresh
    obtain ⟨hc, hn⟩ :=
      list_ok_leaves_fresh_content env t1 mpath escMod c fs s1 n1 cf1 hesc hcall hlook
    constructor
    · rw [← hc]
      exact list_fresh_hit env t2 mpath escMod s1 cf1 hesc hlook hfresh
    · omega

/-- Witness for C4 at concrete inputs: a call at time 150 on a cache entry
written at time 100 returns the cached bytes with zero invocations; and
after a first call at time 400 that populated the cache (one invocation), a
second call at time 500 returns the same bytes with zero further
invocations. -/
theorem list_ttl_fast_path_and_idempotence_witness :
    Ops.List envForWitness 150 "m" fsFreshForWitness =
      (Except.ok "v1.0.0\n", fsFreshForWitness, 0) ∧
    (Ops.List envForWitness 500 "m" fsAfterFirstCall =
      (Except.ok "v1.0.0\n", fsAfterFirstCall, 0) ∧ 1 + 0 ≤ 1) := by
  constructor
  · exact (list_ttl_fast_path_and_idempotence envForWitness "m" "m").1 150
      fsFreshForWitness (CacheFile.mk "v1.0.0\n" 100) rfl rfl (by decide)
  · exact (list_ttl_fast_path_and_idempotence envForWitness "m" "m").2 400 500
      (FS.mk [] []) fsAfterFirstCall "v1.0.0\n" 1 (CacheFile.mk "v1.0.0\n" 400)
      rfl rfl rfl (by decide)

/-- Claim C5: when the toolchain's listing result carries a path different
from the requested module path, `ops.List` returns the integrity error
naming both paths — built exactly as the `fmt.Errorf` call builds it —
and performs no write, leaving the filesystem (in particular the cache
file) unchanged. -/
theorem list_path_mismatch_error (env : ListEnv) (now : Nat)
    (mpath escMod : String) (fs : FS) (res : GoListResult)
    (hesc : env.escapePath mpath = Except.ok escMod)
    (hstale : ∀ cf, FS.lookup fs (cachePath env.downloadRoot escMod) = some cf →
      listExpire ≤ now - cf.mtime)
    (hgo : env.goList (mpath ++ "@latest") = Except.ok res)
    (hne : res.Path ≠ mpath) :
    Ops.List env now mpath fs =
      (Except.error ("go list -m: asked for " ++ mpath ++ " but got " ++ res.Path),
        fs, 1) := by
  have hfetch : listFetch env now mpath fs (cachePath env.downloadRoot escMod) =
      (Except.error ("go list -m: asked for " ++ mpath ++ " but got " ++ res.Path),
        fs, 1) := by
    unfold listFetch
    rw [hgo]
    dsimp only
    rw [if_pos hne]
  unfold Ops.List
  rw [hesc]
  cases hl : FS.lookup fs (cachePath env.downloadRoot escMod) with
  | some cf =>
    simp only [hl]
    rw [if_neg (not_lt.mpr (hstale cf hl))]
    exact hfetch
  | none =>
    simp only [hl]
    exact hfetch

/-- Witness for C5 at a concrete input: asking for example/module while the
toolchain answers for other/module yields the integrity error naming both
paths and leaves the (empty) filesystem unchanged after one invocation. -/
theorem list_path_mismatch_error_witness :
    Ops.List envMismatchForWitness 0 "example/module" (FS.mk [] []) =
      (Except.error "go list -m: asked for example/module but got other/module",
        FS.mk [] [], 1) :=
  list_path_mismatch_error envMismatchForWitness 0 "example/module"
    "example/module" (FS.mk [] []) (GoListResult.mk "other/module" [])
    rfl (fun cf h => Option.noConfusion h) rfl (by decide)
